import Mathlib

/-!
Shallow embedding of the video-processing backend (`src/server.js`).

The program is an Express service: a submission endpoint stores a Job in an
in-memory map and fires off `processVideoBackground`, which downloads two
clips, draws a caption on the first (`addTextOverlay`), merges the two clips
through a fallback chain (`concatenateVideosSimple`), uploads the result and
cleans up the temp files.  External effects (HTTP download, ffmpeg runs,
the R2 upload, the file system) are modelled by explicit environments that
record the outcome of each external call; the control flow, the state
mutations and all string computations are translated directly from the
source.
-/

namespace VideoProc

/-- File contents are byte lists; only length (size) and identity matter. -/
abbrev Content := List Nat

/-- The file system: a map from paths to the contents stored there. -/
abbrev FS := String → Option Content

/-- Job identifiers (uuidv4 strings in the source). -/
abbrev JobId := String

/-- Job status values stored in the `jobs` map: `'processing'`, `'completed'`,
`'failed'` (src/server.js lines 395, 492, 513). -/
inductive Status
  | processing
  | completed
  | failed
deriving DecidableEq

/-- One record of the in-memory `jobs` map.  `videoUrl` is set on completion
(line 495), `error` on failure (line 516). -/
structure Job where
  status : Status
  progress : Nat
  videoUrl : Option String := none
  error : Option String := none
deriving DecidableEq

/-- The in-memory `jobs` map (src/server.js line 37). -/
abbrev Registry := JobId → Option Job

/-- The effect of `jobs.set(id, j)`. -/
def regSet (reg : Registry) (id : JobId) (j : Job) : Registry :=
  fun x => if x = id then some j else reg x

/-- The `updateProgress` closure of `processVideoBackground` (lines 430-435):
read the record, and if it exists overwrite only its `progress` field.  It
does not check whether the job is terminal. -/
def updateProgress (reg : Registry) (id : JobId) (p : Nat) : Registry :=
  match reg id with
  | some j => regSet reg id { j with progress := p }
  | none => reg

/-- The completion write `jobs.set(jobId, ..completed..)` (lines 492-496):
an unconditional overwrite of the whole record. -/
def completeJob (reg : Registry) (id : JobId) (url : String) : Registry :=
  regSet reg id { status := Status.completed, progress := 100, videoUrl := some url }

/-- The failure write `jobs.set(jobId, ..failed..)` (lines 513-517): an
unconditional overwrite, which also resets `progress` to `0`. -/
def failJob (reg : Registry) (id : JobId) (msg : String) : Registry :=
  regSet reg id { status := Status.failed, progress := 0, error := some msg }

/-- Characters matched by the JavaScript regex class `\w` (ASCII letters,
digits, underscore). -/
def jsIsWordChar (c : Char) : Bool :=
  (Char.ofNat 97 ≤ c && c ≤ Char.ofNat 122) ||
  (Char.ofNat 65 ≤ c && c ≤ Char.ofNat 90) ||
  (Char.ofNat 48 ≤ c && c ≤ Char.ofNat 57) ||
  c == Char.ofNat 95

/-- Characters matched by the JavaScript regex class `\s` (ASCII and Unicode
whitespace recognised by ECMAScript). -/
def jsIsSpace (c : Char) : Bool :=
  c.val == 32 || c.val == 9 || c.val == 10 || c.val == 11 || c.val == 12 ||
  c.val == 13 || c.val == 0xa0 || c.val == 0x1680 ||
  (0x2000 ≤ c.val && c.val ≤ 0x200a) || c.val == 0x2028 || c.val == 0x2029 ||
  c.val == 0x202f || c.val == 0x205f || c.val == 0x3000 || c.val == 0xfeff

/-- Characters kept by the first replace in `addTextOverlay` (line 89): the
class `[\w\s\-.,!?]`, everything else is deleted. -/
def allowedChar (c : Char) : Bool :=
  jsIsWordChar c || jsIsSpace c ||
  c == Char.ofNat 45 || c == Char.ofNat 46 || c == Char.ofNat 44 ||
  c == Char.ofNat 33 || c == Char.ofNat 63

/-- The backslash character, used by the escaping replaces. -/
def backslashChar : Char := Char.ofNat 92

/-- The single-quote character targeted by `.replace(/'/g, ..)` (line 90). -/
def quoteChar : Char := Char.ofNat 39

/-- The colon character targeted by `.replace(/:/g, ..)` (line 91). -/
def colonChar : Char := Char.ofNat 58

/-- One step of a global `replace(c, \c)`: the target character becomes a
backslash followed by the character, everything else is kept. -/
def escapeChar (target : Char) (c : Char) : List Char :=
  if c == target then [backslashChar, c] else [c]

/-- The `cleanText` computation of `addTextOverlay` (lines 88-92): delete the
characters outside `[\w\s\-.,!?]`, escape quotes, escape colons, then
`slice(0, 100)`.  After the first filter every remaining character fits in a
single UTF-16 unit, so JavaScript's `slice` agrees with `List.take`. -/
def cleanTextChars (cs : List Char) : List Char :=
  ((((cs.filter allowedChar).flatMap (escapeChar quoteChar)).flatMap
      (escapeChar colonChar)).take 100)

/-- String form of `cleanText`. -/
def cleanText (s : String) : String :=
  String.mk (cleanTextChars s.data)

/-- The `textPosition` switch of `addTextOverlay` (lines 74-85). -/
def textPosition (alignment : String) : String :=
  if alignment == "top" then "(w-text_w)/2:h*0.1"
  else if alignment == "bottom" then "(w-text_w)/2:h*0.85"
  else "(w-text_w)/2:(h-text_h)/2"

/-- The drawtext filter invocation built by `addTextOverlay` (lines 96-110):
one single `text` option — the caption is rendered as one drawtext call,
with no line splitting. -/
structure DrawtextCmd where
  text : String
  fontsize : Nat
  fontcolor : String
  x : String
  y : String
  borderw : Nat
  bordercolor : String
deriving DecidableEq

/-- The drawtext invocation `addTextOverlay` passes to ffmpeg for a given
caption and alignment (`textPosition.split(':')[0]` and `[1]`). -/
def addTextOverlay (text alignment : String) : DrawtextCmd :=
  { text := cleanText text
    fontsize := 32
    fontcolor := "white"
    x := ((textPosition alignment).splitOn ":").getD 0 ""
    y := ((textPosition alignment).splitOn ":").getD 1 ""
    borderw := 2
    bordercolor := "black" }

/-- Outcome of one ffmpeg invocation, as observed by its event handlers:
`failed` fires the `'error'` handler; `ended out` fires the `'end'` handler
with `out` the file the run left at the output path (`none` when no output
file was created). -/
inductive OpResult
  | failed : OpResult
  | ended : Option Content → OpResult
deriving DecidableEq

/-- Which of the three methods of `concatenateVideosSimple` produced (or
attempted to produce) the output. -/
inductive ConcatMethod
  | filterComplex
  | listConcat
  | ugcOnly
deriving DecidableEq

/-- Environment for one call of `concatenateVideosSimple`: the outcome of the
filter_complex ffmpeg run, of the list-concat ffmpeg run, and whether
`fs.copyFileSync` succeeds. -/
structure ConcatEnv where
  filterComplex : OpResult
  listConcat : OpResult
  copyOk : Bool
deriving DecidableEq

/-- The size check both concat methods perform on their output
(`outputStats.size > ugcStats.size`, lines 232 and 289). -/
def validOut (ugcLen : Nat) : Option Content → Bool
  | none => false
  | some c => ugcLen < c.length

/-- Method 3, `tryUgcOnlyFallback` (lines 313-324): `copyFileSync` the UGC
clip to the output path and resolve, or reject if even the copy throws. -/
def tryUgcOnlyFallback (ugc : Content) (env : ConcatEnv) :
    List ConcatMethod × Except String (ConcatMethod × Content) :=
  ([ConcatMethod.ugcOnly],
   if env.copyOk then Except.ok (ConcatMethod.ugcOnly, ugc)
   else Except.error "copy failed")

/-- Method 2, `tryListConcat` (lines 252-310): the `-f concat -c copy` run;
on `'end'`, resolve only when the output exists and is strictly larger than
the UGC clip, otherwise fall through to `tryUgcOnlyFallback`; on `'error'`,
fall through as well. -/
def tryListConcat (ugc : Content) (env : ConcatEnv) :
    List ConcatMethod × Except String (ConcatMethod × Content) :=
  match env.listConcat with
  | OpResult.ended (some c) =>
      if ugc.length < c.length then
        ([ConcatMethod.listConcat], Except.ok (ConcatMethod.listConcat, c))
      else
        let r := tryUgcOnlyFallback ugc env
        (ConcatMethod.listConcat :: r.1, r.2)
  | OpResult.ended none =>
      let r := tryUgcOnlyFallback ugc env
      (ConcatMethod.listConcat :: r.1, r.2)
  | OpResult.failed =>
      let r := tryUgcOnlyFallback ugc env
      (ConcatMethod.listConcat :: r.1, r.2)

/-- Method 1, `tryFilterComplexConcat` (lines 194-249): the filter_complex
re-encoding run; on `'end'`, resolve only when the output exists and is
strictly larger than the UGC clip, otherwise fall through to
`tryListConcat`; on `'error'`, fall through as well. -/
def tryFilterComplexConcat (ugc : Content) (env : ConcatEnv) :
    List ConcatMethod × Except String (ConcatMethod × Content) :=
  match env.filterComplex with
  | OpResult.ended (some c) =>
      if ugc.length < c.length then
        ([ConcatMethod.filterComplex], Except.ok (ConcatMethod.filterComplex, c))
      else
        let r := tryListConcat ugc env
        (ConcatMethod.filterComplex :: r.1, r.2)
  | OpResult.ended none =>
      let r := tryListConcat ugc env
      (ConcatMethod.filterComplex :: r.1, r.2)
  | OpResult.failed =>
      let r := tryListConcat ugc env
      (ConcatMethod.filterComplex :: r.1, r.2)

/-- `concatenateVideosSimple` (lines 170-328): after checking that both input
files exist, start with `tryFilterComplexConcat`.  The first component lists
the methods attempted, in order; the second is the promise outcome, carrying
the method that resolved it and the content left at the output path. -/
def concatenateVideosSimple (ugc demo : Option Content) (env : ConcatEnv) :
    List ConcatMethod × Except String (ConcatMethod × Content) :=
  match ugc with
  | none => ([], Except.error "UGC file not found")
  | some u =>
    match demo with
    | none => ([], Except.error "Demo file not found")
    | some _ => tryFilterComplexConcat u env

/-- The character for a decimal digit. -/
def digitChar (d : Nat) : Char := Char.ofNat (48 + d)

/-- Fuel-driven digit expansion, most significant digit first: with enough
fuel it renders all decimal digits of `n` (empty for `n = 0`). -/
def natDecimalAux (fuel : Nat) (n : Nat) : List Char :=
  match fuel with
  | 0 => []
  | fuel + 1 =>
    if n = 0 then [] else natDecimalAux fuel (n / 10) ++ [digitChar (n % 10)]

/-- Decimal rendering of a natural number, most significant digit first, as
JavaScript template literals render integer timestamps. -/
def natDecimal (n : Nat) : List Char :=
  if n = 0 then [digitChar 0] else natDecimalAux n n

/-- String form of the decimal rendering. -/
def jsNumberToString (n : Nat) : String := String.mk (natDecimal n)

/-- Temp path for the raw UGC clip (line 424), from the run's start
timestamp. -/
def ugcTempPath (t : Nat) : String := "/tmp/ugc-" ++ jsNumberToString t ++ ".mp4"

/-- Temp path for the captioned UGC clip (line 425). -/
def ugcWithTextPath (t : Nat) : String := "/tmp/ugc-text-" ++ jsNumberToString t ++ ".mp4"

/-- Temp path for the raw demo clip (line 426). -/
def demoTempPath (t : Nat) : String := "/tmp/demo-" ++ jsNumberToString t ++ ".mp4"

/-- Temp path for the merged output clip (line 427). -/
def finalVideoPath (t : Nat) : String := "/tmp/final-" ++ jsNumberToString t ++ ".mp4"

/-- The four temp paths a run derives from a timestamp (lines 424-427). -/
def tempPaths (t : Nat) : List String :=
  [ugcTempPath t, ugcWithTextPath t, demoTempPath t, finalVideoPath t]

/-- Writing a file. -/
def setFile (fs : FS) (p : String) (c : Content) : FS :=
  fun q => if q = p then some c else fs q

/-- Removing a file (`fs.remove`, errors swallowed). -/
def removeFile (fs : FS) (p : String) : FS :=
  fun q => if q = p then none else fs q

/-- The four `fs.remove` calls on the paths derived from timestamp `t`
(success path lines 482-487, failure path lines 506-511). -/
def removeTemps (fs : FS) (t : Nat) : FS :=
  removeFile
    (removeFile
      (removeFile (removeFile fs (ugcTempPath t)) (ugcWithTextPath t))
      (demoTempPath t))
    (finalVideoPath t)

/-- Environment of one `processVideoBackground` run: the value of `Date.now()`
at line 423 (`startTime`) and at line 505 in the catch block (`failTime`),
the outcome of each download (`none` = the fetch threw), the outcome of the
`addTextOverlay` encode (`some c` = it resolved leaving content `c`), the
concatenation environment, and the outcome of the R2 upload. -/
structure RunEnv where
  startTime : Nat
  failTime : Nat
  ugcDownload : Option Content
  demoDownload : Option Content
  overlayResult : Option Content
  concatEnv : ConcatEnv
  uploadUrl : Option String

/-- Observable outcome of one run: the sequence of records written to the
`jobs` map for this job by the background task, in order; the final file
system; the content handed to the uploader (when the upload stage ran); and
the final job record. -/
structure RunOut where
  trace : List Job
  fs : FS
  published : Option Content
  final : Job

/-- The catch block of `processVideoBackground` (lines 501-518): recompute
`Date.now()` (giving `env.failTime`), remove the four paths derived from
that fresh timestamp, then overwrite the job record with
`status = failed, progress = 0`. -/
def catchBlock (env : RunEnv) (fs : FS) (msg : String) (tr : List Job) : RunOut :=
  let j : Job := { status := Status.failed, progress := 0, error := some msg }
  { trace := tr ++ [j]
    fs := removeTemps fs env.failTime
    published := none
    final := j }

/-- The tail of the run after the concatenation stage (lines 473-499):
progress 85, upload (reading the merged file), progress 95, remove the four
temp paths derived from the run's own start timestamp, progress 100, then
mark the job completed. -/
def afterConcat (env : RunEnv) (fs : FS) (tr : List Job) : RunOut :=
  let tr4 := tr ++ [{ status := Status.processing, progress := 85 : Job }]
  match env.uploadUrl with
  | none => catchBlock env fs "upload failed" tr4
  | some url =>
    let tr5 := tr4 ++ [{ status := Status.processing, progress := 95 : Job }]
    let fs5 := removeTemps fs env.startTime
    let tr6 := tr5 ++ [{ status := Status.processing, progress := 100 : Job }]
    let done : Job := { status := Status.completed, progress := 100, videoUrl := some url }
    { trace := tr6 ++ [done]
      fs := fs5
      published := fs (finalVideoPath env.startTime)
      final := done }

/-- `processVideoBackground` (lines 421-519).  Stages in order: progress 10;
download the UGC clip to `ugcTempPath`; progress 30; download the demo clip
to `demoTempPath`; progress 50; caption the UGC clip to `ugcWithTextPath`;
progress 70; merge via `concatenateVideosSimple` — if the whole chain
rejects, the outer catch at line 464 copies the captioned clip to the output
path itself (the same `copyFileSync` that method 3 just attempted) — then
upload and clean up.  Any thrown error lands in `catchBlock`. -/
def processVideoBackground (env : RunEnv) (fs0 : FS) : RunOut :=
  let t := env.startTime
  let tr0 := [{ status := Status.processing, progress := 10 : Job }]
  match env.ugcDownload with
  | none => catchBlock env fs0 "ugc download failed" tr0
  | some ugcRaw =>
    let fs1 := setFile fs0 (ugcTempPath t) ugcRaw
    let tr1 := tr0 ++ [{ status := Status.processing, progress := 30 : Job }]
    match env.demoDownload with
    | none => catchBlock env fs1 "demo download failed" tr1
    | some demoRaw =>
      let fs2 := setFile fs1 (demoTempPath t) demoRaw
      let tr2 := tr1 ++ [{ status := Status.processing, progress := 50 : Job }]
      match env.overlayResult with
      | none => catchBlock env fs2 "overlay failed" tr2
      | some captioned =>
        let fs3 := setFile fs2 (ugcWithTextPath t) captioned
        let tr3 := tr2 ++ [{ status := Status.processing, progress := 70 : Job }]
        match (concatenateVideosSimple (some captioned) (some demoRaw) env.concatEnv).2 with
        | Except.ok mc => afterConcat env (setFile fs3 (finalVideoPath t) mc.2) tr3
        | Except.error _ =>
          if env.concatEnv.copyOk then
            afterConcat env (setFile fs3 (finalVideoPath t) captioned) tr3
          else
            catchBlock env fs3 "copy failed" tr3

/-- All records stored for the job over its lifetime, starting with the
`jobs.set(jobId, processing, 0)` written by the submission handler
(line 395) before the background task runs. -/
def lifecycleTrace (env : RunEnv) (fs0 : FS) : List Job :=
  { status := Status.processing, progress := 0 : Job } ::
    (processVideoBackground env fs0).trace

/-- The `/process-video` handler (lines 368-406) together with the
synchronous prefix of the background task it spawns: the handler stores
`status = processing, progress = 0` and calls `processVideoBackground`
without awaiting it; that call runs synchronously up to its first `await`
(the UGC download at line 444), so `updateProgress(10)` at line 440 has
already executed by the time the response — and any later status query on
the single-threaded event loop — can be observed. -/
def submitHandler (reg : Registry) (newId : JobId) : JobId × Registry :=
  let reg1 := regSet reg newId { status := Status.processing, progress := 0 }
  let reg2 := updateProgress reg1 newId 10
  (newId, reg2)

/-- The spec's validity rule, in its own words: an output is judged invalid
if it does not exist on disk after the operation reports success, or if its
byte size is not larger than asset A's byte size alone. -/
def specJudgedInvalid (aLen : Nat) (out : Option Content) : Prop :=
  out = none ∨ ∃ c, out = some c ∧ ¬ aLen < c.length

/-- A concatenation tier neither resolves nor leaves a valid output: the
ffmpeg run fired `'error'`, or it ended but its output fails the size
check. -/
def tierRejects (aLen : Nat) : OpResult → Bool
  | OpResult.failed => true
  | OpResult.ended out => ! validOut aLen out

/-- Identity of one background run: the job id it serves and the value
`Date.now()` returned at its line 423. -/
structure JobRun where
  jobId : JobId
  startTime : Nat
deriving DecidableEq

/-- The temp paths a run derives — a function of the timestamp alone
(lines 424-427 use only `timestamp`, never `jobId`). -/
def runTempPaths (r : JobRun) : List String := tempPaths r.startTime

/-- The empty file system. -/
def fsEmpty : FS := fun _ => none

/-- A concrete failing run for the cleanup analysis: the UGC download
succeeds at start time 1000, the demo download throws, and by the time the
catch block runs the clock reads 1001. -/
def downloadFailEnv : RunEnv :=
  { startTime := 1000
    failTime := 1001
    ugcDownload := some [7]
    demoDownload := none
    overlayResult := none
    concatEnv := { filterComplex := OpResult.failed, listConcat := OpResult.failed, copyOk := true }
    uploadUrl := none }

/-- A concatenation environment in which both ffmpeg methods would succeed
with size-valid outputs: the filter_complex run leaves a 2-byte file and the
list-concat run would leave a 3-byte file. -/
def bothSucceedEnv : ConcatEnv :=
  { filterComplex := OpResult.ended (some [1, 2])
    listConcat := OpResult.ended (some [1, 2, 3])
    copyOk := true }

/-- A concatenation environment whose filter_complex run reports success but
leaves an empty output file, and whose list-concat run fires an error. -/
def invalidOutEnv : ConcatEnv :=
  { filterComplex := OpResult.ended (some [])
    listConcat := OpResult.failed
    copyOk := true }

/-- A run in which downloads, overlay and upload all succeed but both ffmpeg
merging methods fire errors, leaving only the UGC-only copy. -/
def allFailEnv : RunEnv :=
  { startTime := 1
    failTime := 2
    ugcDownload := some [1]
    demoDownload := some [2]
    overlayResult := some [3, 3]
    concatEnv := { filterComplex := OpResult.failed, listConcat := OpResult.failed, copyOk := true }
    uploadUrl := some "https://cdn/x.mp4" }

/-- A registry holding one completed job, for exercising post-terminal
registry operations. -/
def regAfterComplete : Registry :=
  completeJob (fun _ => none) "job-1" "http://cdn/video.mp4"

/-- C3: a download failure is meant to leave no temp files behind, but the
catch block of `processVideoBackground` recomputes `Date.now()` (line 505)
instead of reusing the run's start timestamp, so it removes the wrong
paths: after a demo-download failure at clock 1001 of a run started at
clock 1000, the job is marked failed yet the downloaded UGC clip is still
on disk at `/tmp/ugc-1000.mp4`. -/
theorem C3_download_failure_leaves_temp_file :
    (processVideoBackground downloadFailEnv fsEmpty).final.status = Status.failed ∧
    (processVideoBackground downloadFailEnv fsEmpty).fs (ugcTempPath 1000) = some [7] := by
  constructor
  · rfl
  · decide

/-- C1 counterexample: in an environment where both concatenation methods
would succeed with valid outputs, the chain attempts only the
filter_complex method and the output is the filter-graph one — the
stream-copy (list) concat is never attempted, contradicting the claimed
order (normalize/stream-copy first, filter-graph second). -/
theorem C1_counterexample :
    (concatenateVideosSimple (some [9]) (some [5]) bothSucceedEnv).1 =
      [ConcatMethod.filterComplex] ∧
    ConcatMethod.listConcat ∉ (concatenateVideosSimple (some [9]) (some [5]) bothSucceedEnv).1 ∧
    (concatenateVideosSimple (some [9]) (some [5]) bothSucceedEnv).2 =
      Except.ok (ConcatMethod.filterComplex, [1, 2]) := by
  refine ⟨rfl, by decide, rfl⟩

/-- C9 counterexample: two runs serving distinct job ids but started in the
same millisecond derive exactly the same four temp paths, so temp files are
not exclusive to one job run. -/
theorem C9_counterexample :
    (⟨"job-a", 1000⟩ : JobRun).jobId ≠ (⟨"job-b", 1000⟩ : JobRun).jobId ∧
    runTempPaths ⟨"job-a", 1000⟩ = runTempPaths ⟨"job-b", 1000⟩ := by
  refine ⟨by decide, rfl⟩

/-- C4 counterexample: in the run where the demo download fails, the stored
progress values over the job's lifetime are 0, 10, 30 and then 0 again —
the failure write resets progress to 0, so the observed sequence
decreases. -/
theorem C4_counterexample :
    (lifecycleTrace downloadFailEnv fsEmpty).map Job.progress = [0, 10, 30, 0] ∧
    ¬ List.Chain' (· ≤ ·) ((lifecycleTrace downloadFailEnv fsEmpty).map Job.progress) := by
  refine ⟨rfl, fun hch => ?_⟩
  have hch2 : List.Chain' (· ≤ ·) ([0, 10, 30, 0] : List Nat) := hch
  simp [List.chain'_cons] at hch2

/-- C5 counterexample: after a job has completed, a further `setProgress`
call is not a no-op — it overwrites the stored progress (100 becomes 50)
while keeping the completed status, so the first terminal result does not
stay unchanged. -/
theorem C5_counterexample :
    (updateProgress regAfterComplete "job-1" 50) "job-1" =
      some { status := Status.completed, progress := 50,
             videoUrl := some "http://cdn/video.mp4" } ∧
    (updateProgress regAfterComplete "job-1" 50) "job-1" ≠ regAfterComplete "job-1" := by
  refine ⟨rfl, by decide⟩

/-- C6 counterexample: immediately after submission the stored job record is
`processing` with progress 10, not 0 — the spawned background task runs
synchronously up to its first `await` and has already executed
`updateProgress(10)` before the submission response can be observed. -/
theorem C6_counterexample :
    (submitHandler (fun _ => none) "job-1").2 "job-1" =
      some { status := Status.processing, progress := 10 } ∧
    (submitHandler (fun _ => none) "job-1").2 "job-1" ≠
      some { status := Status.processing, progress := 0 } := by
  refine ⟨rfl, by decide⟩

/-- C8 counterexample: the 30-character caption from the spec's own example
is rendered as a single unbroken drawtext string of length 30 — no greedy
word-wrap at 25 characters is applied anywhere. -/
theorem C8_counterexample :
    (addTextOverlay "the quick brown fox jumps over" "middle").text =
      "the quick brown fox jumps over" ∧
    25 < ((addTextOverlay "the quick brown fox jumps over" "middle").text).length := by
  refine ⟨rfl, by decide⟩

/-- C7: the validity judgment both merging methods apply to their output is
exactly the spec's rule — invalid iff the output file is absent after the
run reports success, or its size is not strictly larger than asset A's —
and an invalid (or absent) output makes the chain move to the next tier
rather than reject. -/
theorem C7_validity_rule (u : Content) (env : ConcatEnv) (out : Option Content) :
    (validOut u.length out = false ↔ specJudgedInvalid u.length out) ∧
    (env.filterComplex = OpResult.ended out → specJudgedInvalid u.length out →
      tryFilterComplexConcat u env =
        (ConcatMethod.filterComplex :: (tryListConcat u env).1, (tryListConcat u env).2)) ∧
    (env.listConcat = OpResult.ended out → specJudgedInvalid u.length out →
      tryListConcat u env =
        (ConcatMethod.listConcat :: (tryUgcOnlyFallback u env).1, (tryUgcOnlyFallback u env).2)) ∧
    (env.filterComplex = OpResult.ended out → ¬ specJudgedInvalid u.length out →
      ∃ c, out = some c ∧
        tryFilterComplexConcat u env =
          ([ConcatMethod.filterComplex], Except.ok (ConcatMethod.filterComplex, c))) := by
  refine ⟨?_, ?_, ?_, ?_⟩
  · cases out with
    | none => simp [validOut, specJudgedInvalid]
    | some c => simp [validOut, specJudgedInvalid]
  · intro hf hinv
    cases out with
    | none => simp [tryFilterComplexConcat, hf]
    | some c =>
      rcases hinv with h | ⟨c2, hc2, hlt⟩
      · exact absurd h (by simp)
      · injection hc2 with hcc
        subst hcc
        simp [tryFilterComplexConcat, hf, hlt]
  · intro hl hinv
    cases out with
    | none => simp [tryListConcat, hl]
    | some c =>
      rcases hinv with h | ⟨c2, hc2, hlt⟩
      · exact absurd h (by simp)
      · injection hc2 with hcc
        subst hcc
        simp [tryListConcat, hl, hlt]
  · intro hf hval
    cases out with
    | none => exact absurd (Or.inl rfl) hval
    | some c =>
      have hlt : u.length < c.length := by
        by_contra hnot
        exact hval (Or.inr ⟨c, rfl, hnot⟩)
      exact ⟨c, rfl, by simp [tryFilterComplexConcat, hf, hlt]⟩

/-- C7 witness: with a filter_complex run ending in an empty output file and
a 1-byte asset A, the output is judged invalid and the chain proceeds to the
list-concat tier. -/
theorem C7_validity_rule_witness :
    invalidOutEnv.filterComplex = OpResult.ended (some []) ∧
    specJudgedInvalid ([0] : Content).length (some []) ∧
    tryFilterComplexConcat [0] invalidOutEnv =
      (ConcatMethod.filterComplex :: (tryListConcat [0] invalidOutEnv).1,
        (tryListConcat [0] invalidOutEnv).2) :=
  ⟨rfl, Or.inr ⟨[], rfl, by decide⟩,
    (C7_validity_rule [0] invalidOutEnv (some [])).2.1 rfl (Or.inr ⟨[], rfl, by decide⟩)⟩

/-- The list-concat method always records itself in the attempt list of
`tryListConcat`. -/
theorem mem_tryListConcat (u : Content) (env : ConcatEnv) :
    ConcatMethod.listConcat ∈ (tryListConcat u env).1 := by
  rcases hl : env.listConcat with _ | out
  · simp [tryListConcat, hl]
  · rcases out with _ | c
    · simp [tryListConcat, hl]
    · by_cases hlt : u.length < c.length
      · simp [tryListConcat, hl, hlt]
      · simp [tryListConcat, hl, hlt]

/-- C1 (amended): the chain always attempts the filter-graph method first;
when the filter-graph run ends with a size-valid output, it alone produced
the merged output and the chain stops there; the stream-copy (list) concat
is attempted exactly when the filter-graph tier fails or its output is
judged invalid — in particular there is no normalize-then-copy tier, and
for stream-copy-incompatible inputs whose filter-graph run succeeds, the
merged output is the filter-graph one. -/
theorem C1_amended_tier_order (u d : Content) (env : ConcatEnv) :
    ((concatenateVideosSimple (some u) (some d) env).1).head? =
      some ConcatMethod.filterComplex ∧
    (∀ c, env.filterComplex = OpResult.ended (some c) → u.length < c.length →
      concatenateVideosSimple (some u) (some d) env =
        ([ConcatMethod.filterComplex], Except.ok (ConcatMethod.filterComplex, c))) ∧
    (ConcatMethod.listConcat ∈ (concatenateVideosSimple (some u) (some d) env).1 ↔
      tierRejects u.length env.filterComplex = true) := by
  refine ⟨?_, ?_, ?_⟩
  · rcases hf : env.filterComplex with _ | out
    · simp [concatenateVideosSimple, tryFilterComplexConcat, hf]
    · rcases out with _ | c
      · simp [concatenateVideosSimple, tryFilterComplexConcat, hf]
      · by_cases hlt : u.length < c.length
        · simp [concatenateVideosSimple, tryFilterComplexConcat, hf, hlt]
        · simp [concatenateVideosSimple, tryFilterComplexConcat, hf, hlt]
  · intro c hf hlt
    simp [concatenateVideosSimple, tryFilterComplexConcat, hf, hlt]
  · rcases hf : env.filterComplex with _ | out
    · simp [concatenateVideosSimple, tryFilterComplexConcat, tierRejects, hf,
        mem_tryListConcat u env]
    · rcases out with _ | c
      · simp [concatenateVideosSimple, tryFilterComplexConcat, tierRejects,
          validOut, hf, mem_tryListConcat u env]
      · by_cases hlt : u.length < c.length
        · simp [concatenateVideosSimple, tryFilterComplexConcat, tierRejects,
            validOut, hf, hlt]
        · simp [concatenateVideosSimple, tryFilterComplexConcat, tierRejects,
            validOut, hf, hlt, mem_tryListConcat u env]

/-- C1 witness: in the environment where both methods would succeed, the
filter-graph tier ends with a valid 2-byte output over a 1-byte asset A and
the chain resolves with the filter-graph output alone. -/
theorem C1_amended_tier_order_witness :
    bothSucceedEnv.filterComplex = OpResult.ended (some [1, 2]) ∧
    ([9] : Content).length < ([1, 2] : Content).length ∧
    concatenateVideosSimple (some [9]) (some [5]) bothSucceedEnv =
      ([ConcatMethod.filterComplex], Except.ok (ConcatMethod.filterComplex, [1, 2])) :=
  ⟨rfl, by decide,
    (C1_amended_tier_order [9] [5] bothSucceedEnv).2.1 [1, 2] rfl (by decide)⟩

/-- When both ffmpeg merging methods fail or leave invalid output, the whole
chain reduces to the UGC-only copy: it resolves with asset A's bytes when
the copy succeeds and rejects when the copy throws. -/
theorem concat_all_reject (a d : Content) (env : ConcatEnv)
    (hf : tierRejects a.length env.filterComplex = true)
    (hl : tierRejects a.length env.listConcat = true) :
    (concatenateVideosSimple (some a) (some d) env).2 =
      if env.copyOk then Except.ok (ConcatMethod.ugcOnly, a)
      else Except.error "copy failed" := by
  rcases hfc : env.filterComplex with _ | fout
  · rcases hlc : env.listConcat with _ | lout
    · simp [concatenateVideosSimple, tryFilterComplexConcat, tryListConcat,
        tryUgcOnlyFallback, hfc, hlc]
    · rcases lout with _ | c
      · simp [concatenateVideosSimple, tryFilterComplexConcat, tryListConcat,
          tryUgcOnlyFallback, hfc, hlc]
      · have hlt : ¬ a.length < c.length := by
          simpa [tierRejects, hlc, validOut] using hl
        simp [concatenateVideosSimple, tryFilterComplexConcat, tryListConcat,
          tryUgcOnlyFallback, hfc, hlc, hlt]
  · rcases fout with _ | c
    · rcases hlc : env.listConcat with _ | lout
      · simp [concatenateVideosSimple, tryFilterComplexConcat, tryListConcat,
          tryUgcOnlyFallback, hfc, hlc]
      · rcases lout with _ | c2
        · simp [concatenateVideosSimple, tryFilterComplexConcat, tryListConcat,
            tryUgcOnlyFallback, hfc, hlc]
        · have hlt : ¬ a.length < c2.length := by
            simpa [tierRejects, hlc, validOut] using hl
          simp [concatenateVideosSimple, tryFilterComplexConcat, tryListConcat,
            tryUgcOnlyFallback, hfc, hlc, hlt]
    · have hltf : ¬ a.length < c.length := by
        simpa [tierRejects, hfc, validOut] using hf
      rcases hlc : env.listConcat with _ | lout
      · simp [concatenateVideosSimple, tryFilterComplexConcat, tryListConcat,
          tryUgcOnlyFallback, hfc, hlc, hltf]
      · rcases lout with _ | c2
        · simp [concatenateVideosSimple, tryFilterComplexConcat, tryListConcat,
            tryUgcOnlyFallback, hfc, hlc, hltf]
        · have hlt : ¬ a.length < c2.length := by
            simpa [tierRejects, hlc, validOut] using hl
          simp [concatenateVideosSimple, tryFilterComplexConcat, tryListConcat,
            tryUgcOnlyFallback, hfc, hlc, hltf, hlt]

/-- C2: when every merging tier fails or produces invalid output, the run
copies the captioned asset A to the output path: the published bytes are
exactly asset A's and the job still completes; the job fails at the
concatenation stage only when that copy itself throws. -/
theorem C2_degrade_to_A (env : RunEnv) (fs0 : FS) (a : Content) (url : String)
    (hu : ∃ u, env.ugcDownload = some u) (hd : ∃ d, env.demoDownload = some d)
    (ha : env.overlayResult = some a)
    (hf : tierRejects a.length env.concatEnv.filterComplex = true)
    (hl : tierRejects a.length env.concatEnv.listConcat = true)
    (hup : env.uploadUrl = some url) :
    (env.concatEnv.copyOk = true →
      (processVideoBackground env fs0).published = some a ∧
      (processVideoBackground env fs0).final =
        { status := Status.completed, progress := 100, videoUrl := some url }) ∧
    (env.concatEnv.copyOk = false →
      (processVideoBackground env fs0).final.status = Status.failed ∧
      (processVideoBackground env fs0).published = none) := by
  obtain ⟨u, hu⟩ := hu
  obtain ⟨d, hd⟩ := hd
  have hconcat := concat_all_reject a d env.concatEnv hf hl
  constructor
  · intro hcopy
    rw [hcopy] at hconcat
    simp only [if_true] at hconcat
    simp [processVideoBackground, hu, hd, ha, hconcat, afterConcat, hup, setFile]
  · intro hcopy
    rw [hcopy] at hconcat
    simp only [Bool.false_eq_true, if_false] at hconcat
    simp [processVideoBackground, hu, hd, ha, hconcat, hcopy, catchBlock]

/-- C2 witness: in the run where both merging methods fire errors but the
copy succeeds, the published bytes are the captioned asset A and the job
completes with the uploaded URL. -/
theorem C2_degrade_to_A_witness :
    (processVideoBackground allFailEnv fsEmpty).published = some [3, 3] ∧
    (processVideoBackground allFailEnv fsEmpty).final =
      { status := Status.completed, progress := 100, videoUrl := some "https://cdn/x.mp4" } :=
  (C2_degrade_to_A allFailEnv fsEmpty [3, 3] "https://cdn/x.mp4"
    ⟨[1], rfl⟩ ⟨[2], rfl⟩ rfl rfl rfl rfl).1 rfl

/-- C4 (amended): over a job's lifetime the stored progress values are
non-decreasing and bounded by 100 while the status is `processing`, every
write except the final one keeps status `processing`, the final write is
the job's terminal record (nothing changes after it within the run) — but
the failure write resets progress to 0, so the full observed sequence can
decrease at the transition to `failed`. -/
theorem C4_amended_progress (env : RunEnv) (fs0 : FS) :
    List.Chain' (· ≤ ·)
      (((lifecycleTrace env fs0).takeWhile
          (fun j => j.status == Status.processing)).map Job.progress) ∧
    (∀ j ∈ lifecycleTrace env fs0, j.progress ≤ 100) ∧
    (∀ j ∈ (lifecycleTrace env fs0).dropLast, j.status = Status.processing) ∧
    (lifecycleTrace env fs0).getLast? = some (processVideoBackground env fs0).final ∧
    ((processVideoBackground env fs0).final.status = Status.failed →
      (processVideoBackground env fs0).final.progress = 0) := by
  rcases hu : env.ugcDownload with _ | u
  · refine ⟨?_, ?_, ?_, ?_, ?_⟩ <;>
      simp [lifecycleTrace, processVideoBackground, hu, catchBlock,
        List.chain'_cons, List.dropLast, List.getLast?]
  rcases hd : env.demoDownload with _ | d
  · refine ⟨?_, ?_, ?_, ?_, ?_⟩ <;>
      simp [lifecycleTrace, processVideoBackground, hu, hd, catchBlock,
        List.chain'_cons, List.dropLast, List.getLast?]
  rcases hov : env.overlayResult with _ | a
  · refine ⟨?_, ?_, ?_, ?_, ?_⟩ <;>
      simp [lifecycleTrace, processVideoBackground, hu, hd, hov, catchBlock,
        List.chain'_cons, List.dropLast, List.getLast?]
  rcases hc : (concatenateVideosSimple (some a) (some d) env.concatEnv).2 with e | mc
  · rcases hcopy : env.concatEnv.copyOk
    · refine ⟨?_, ?_, ?_, ?_, ?_⟩ <;>
        simp [lifecycleTrace, processVideoBackground, hu, hd, hov, hc, hcopy,
          catchBlock, List.chain'_cons, List.dropLast, List.getLast?]
    · rcases hup : env.uploadUrl with _ | url
      · refine ⟨?_, ?_, ?_, ?_, ?_⟩ <;>
          simp [lifecycleTrace, processVideoBackground, hu, hd, hov, hc, hcopy,
            afterConcat, hup, catchBlock, List.chain'_cons, List.dropLast,
            List.getLast?]
      · refine ⟨?_, ?_, ?_, ?_, ?_⟩ <;>
          simp [lifecycleTrace, processVideoBackground, hu, hd, hov, hc, hcopy,
            afterConcat, hup, catchBlock, List.chain'_cons, List.dropLast,
            List.getLast?]
  · rcases hup : env.uploadUrl with _ | url
    · refine ⟨?_, ?_, ?_, ?_, ?_⟩ <;>
        simp [lifecycleTrace, processVideoBackground, hu, hd, hov, hc,
          afterConcat, hup, catchBlock, List.chain'_cons, List.dropLast,
          List.getLast?]
    · refine ⟨?_, ?_, ?_, ?_, ?_⟩ <;>
        simp [lifecycleTrace, processVideoBackground, hu, hd, hov, hc,
          afterConcat, hup, catchBlock, List.chain'_cons, List.dropLast,
          List.getLast?]

/-- C4 witness: the initial record of the `allFailEnv` run is among the
lifetime writes and the theorem bounds its progress by 100; the monotone
prefix statement holds for the same run. -/
theorem C4_amended_progress_witness :
    List.Chain' (· ≤ ·)
      (((lifecycleTrace allFailEnv fsEmpty).takeWhile
          (fun j => j.status == Status.processing)).map Job.progress) ∧
    ({ status := Status.processing, progress := 0 : Job } ∈
      lifecycleTrace allFailEnv fsEmpty) ∧
    ({ status := Status.processing, progress := 0 : Job }).progress ≤ 100 :=
  ⟨(C4_amended_progress allFailEnv fsEmpty).1,
    List.mem_cons_self _ _,
    (C4_amended_progress allFailEnv fsEmpty).2.1 _ (List.mem_cons_self _ _)⟩

/-- C5 (amended): `setProgress` is a no-op exactly when the id is absent;
when a record exists — terminal or not — it overwrites only the progress
field and leaves every other job untouched; the terminal writes `complete`
and `fail` unconditionally replace the stored record, so a `fail` issued
after a `complete` overwrites the first terminal result rather than being a
no-op. -/
theorem C5_amended_registry_ops (reg : Registry) (id : JobId) (p : Nat)
    (url msg : String) :
    (reg id = none → updateProgress reg id p = reg) ∧
    (∀ j, reg id = some j →
      (updateProgress reg id p) id = some { j with progress := p } ∧
      ∀ x, x ≠ id → (updateProgress reg id p) x = reg x) ∧
    ((completeJob reg id url) id =
      some { status := Status.completed, progress := 100, videoUrl := some url }) ∧
    ((failJob (completeJob reg id url) id msg) id =
      some { status := Status.failed, progress := 0, error := some msg }) := by
  refine ⟨?_, ?_, ?_, ?_⟩
  · intro h
    simp [updateProgress, h]
  · intro j h
    refine ⟨?_, ?_⟩
    · simp [updateProgress, h, regSet]
    · intro x hx
      simp [updateProgress, h, regSet, hx]
  · simp [completeJob, regSet]
  · simp [failJob, completeJob, regSet]

/-- C5 witness: on the registry holding one completed job, `setProgress` of
an absent id is a no-op, and `setProgress` of the completed id overwrites
its progress while a later `fail` overwrites the whole record. -/
theorem C5_amended_registry_ops_witness :
    (regAfterComplete "job-2" = none → updateProgress regAfterComplete "job-2" 5 = regAfterComplete) ∧
    (updateProgress regAfterComplete "job-1" 50) "job-1" =
      some { status := Status.completed, progress := 50,
             videoUrl := some "http://cdn/video.mp4" } ∧
    (failJob (completeJob regAfterComplete "job-1" "http://cdn/video.mp4") "job-1" "boom") "job-1" =
      some { status := Status.failed, progress := 0, error := some "boom" } :=
  ⟨(C5_amended_registry_ops regAfterComplete "job-2" 5 "u" "e").1,
    by
      have h := ((C5_amended_registry_ops regAfterComplete "job-1" 50 "u" "e").2.1
        { status := Status.completed, progress := 100,
          videoUrl := some "http://cdn/video.mp4" } rfl).1
      exact h,
    (C5_amended_registry_ops regAfterComplete "job-1" 0 "http://cdn/video.mp4" "boom").2.2.2⟩

/-- C6 (amended): submitting with a fresh id returns that id (computed with
no dependence on any media work), leaves every other job unchanged, and the
job record observable immediately afterwards is `processing` with progress
10 — not 0, because the spawned background task synchronously runs its
first checkpoint update before the response can be observed. -/
theorem C6_amended_submission (reg : Registry) (id : JobId) (_h : reg id = none) :
    (submitHandler reg id).1 = id ∧
    (submitHandler reg id).2 id = some { status := Status.processing, progress := 10 } ∧
    (∀ x, x ≠ id → (submitHandler reg id).2 x = reg x) := by
  refine ⟨rfl, ?_, ?_⟩
  · simp [submitHandler, updateProgress, regSet]
  · intro x hx
    simp [submitHandler, updateProgress, regSet, hx]

/-- C6 witness: submitting job id `"job-1"` to the empty registry returns
that id and stores a `processing` record at progress 10. -/
theorem C6_amended_submission_witness :
    ((fun _ => none : Registry) "job-1" = none) ∧
    (submitHandler (fun _ => none) "job-1").1 = "job-1" ∧
    (submitHandler (fun _ => none) "job-1").2 "job-1" =
      some { status := Status.processing, progress := 10 } :=
  ⟨rfl, (C6_amended_submission (fun _ => none) "job-1" rfl).1,
    (C6_amended_submission (fun _ => none) "job-1" rfl).2.1⟩

/-- A global escape replace leaves a list untouched when the target
character does not occur in it. -/
theorem flatMap_escapeChar_id (target : Char) (cs : List Char)
    (h : ∀ c ∈ cs, (c == target) = false) :
    cs.flatMap (escapeChar target) = cs := by
  induction cs with
  | nil => rfl
  | cons c cs ih =>
    have hc := h c (List.mem_cons_self _ _)
    have hrest := ih fun x hx => h x (List.mem_cons_of_mem _ hx)
    simp [escapeChar, hc, hrest]

/-- Characters surviving the character-class filter are never the quote
target. -/
theorem allowed_ne_quote (c : Char) (h : allowedChar c = true) :
    (c == quoteChar) = false := by
  cases hb : c == quoteChar
  · rfl
  · have hc : c = quoteChar := eq_of_beq hb
    rw [hc] at h
    exact absurd h (by decide)

/-- Characters surviving the character-class filter are never the colon
target. -/
theorem allowed_ne_colon (c : Char) (h : allowedChar c = true) :
    (c == colonChar) = false := by
  cases hb : c == colonChar
  · rfl
  · have hc : c = colonChar := eq_of_beq hb
    rw [hc] at h
    exact absurd h (by decide)

/-- The two escape replaces in `addTextOverlay` are vacuous: the first
replace has already deleted every quote and colon, so the sanitizer is
exactly filter-then-truncate. -/
theorem cleanTextChars_eq_filter_take (cs : List Char) :
    cleanTextChars cs = (cs.filter allowedChar).take 100 := by
  unfold cleanTextChars
  have h1 : (cs.filter allowedChar).flatMap (escapeChar quoteChar) =
      cs.filter allowedChar :=
    flatMap_escapeChar_id quoteChar _ fun c hc =>
      allowed_ne_quote c (List.mem_filter.mp hc).2
  rw [h1]
  have h2 : (cs.filter allowedChar).flatMap (escapeChar colonChar) =
      cs.filter allowedChar :=
    flatMap_escapeChar_id colonChar _ fun c hc =>
      allowed_ne_colon c (List.mem_filter.mp hc).2
  rw [h2]

/-- C8 (amended): no word-wrap is performed.  The caption is rendered by a
single drawtext invocation whose text is exactly the sanitized input —
characters outside the allowed class removed (order preserved), truncated
at 100 characters — with no 25-character line limit and no 3-line clipping
anywhere. -/
theorem C8_amended_no_wrap (text alignment : String) :
    (addTextOverlay text alignment).text = cleanText text ∧
    (addTextOverlay text alignment).text.length ≤ 100 ∧
    List.Sublist (addTextOverlay text alignment).text.data text.data := by
  refine ⟨rfl, ?_, ?_⟩
  · show (cleanTextChars text.data).length ≤ 100
    rw [cleanTextChars_eq_filter_take]
    exact List.length_take_le _ _
  · show List.Sublist (cleanTextChars text.data) text.data
    rw [cleanTextChars_eq_filter_take]
    exact (List.take_sublist _ _).trans (List.filter_sublist _)

/-- C10: the rendered caption is exactly the sanitized input: every
character outside word characters, whitespace, hyphen, period, comma, `!`
and `?` is removed (the quote/colon escape replaces are vacuous because the
filter already removed their targets), the result is truncated to at most
100 characters, and only allowed characters reach the drawtext filter. -/
theorem C10_caption_sanitized (text alignment : String) :
    (addTextOverlay text alignment).text =
      String.mk ((text.data.filter allowedChar).take 100) ∧
    (addTextOverlay text alignment).text.length ≤ 100 ∧
    ∀ c ∈ (addTextOverlay text alignment).text.data, allowedChar c = true := by
  refine ⟨?_, ?_, ?_⟩
  · show String.mk (cleanTextChars text.data) = _
    rw [cleanTextChars_eq_filter_take]
  · show (cleanTextChars text.data).length ≤ 100
    rw [cleanTextChars_eq_filter_take]
    exact List.length_take_le _ _
  · intro c hc
    have hc2 : c ∈ (text.data.filter allowedChar).take 100 := by
      have : c ∈ cleanTextChars text.data := hc
      rwa [cleanTextChars_eq_filter_take] at this
    exact (List.mem_filter.mp (List.mem_of_mem_take hc2)).2

/-- C10 witness: for the caption `"a:b!"` the colon is removed and the
character `a`, present in the rendered caption, is an allowed character. -/
theorem C10_caption_sanitized_witness :
    (addTextOverlay "a:b!" "top").text =
      String.mk ((("a:b!" : String).data.filter allowedChar).take 100) ∧
    ('a' ∈ (addTextOverlay "a:b!" "top").text.data) ∧
    allowedChar 'a' = true :=
  ⟨(C10_caption_sanitized "a:b!" "top").1, by decide,
    (C10_caption_sanitized "a:b!" "top").2.2 'a' (by decide)⟩

/-- With enough fuel, the fuel-driven expansion produces exactly the decimal
digits of `n`, most significant first. -/
theorem natDecimalAux_eq (fuel : Nat) :
    ∀ n, n ≤ fuel → natDecimalAux fuel n = (Nat.digits 10 n).reverse.map digitChar := by
  induction fuel with
  | zero =>
    intro n h
    have hn : n = 0 := Nat.le_zero.mp h
    subst hn
    simp [natDecimalAux]
  | succ fuel ih =>
    intro n h
    by_cases hn : n = 0
    · subst hn
      simp [natDecimalAux]
    · have hpos : 0 < n := Nat.pos_of_ne_zero hn
      have hdiv : n / 10 ≤ fuel := by
        have hlt : n / 10 < n := Nat.div_lt_self hpos (by norm_num)
        omega
      rw [natDecimalAux, if_neg hn, ih (n / 10) hdiv,
        Nat.digits_def' (by norm_num : (1 : Nat) < 10) hpos]
      simp

/-- The decimal rendering expressed through `Nat.digits`. -/
theorem natDecimal_eq (n : Nat) :
    natDecimal n =
      (if n = 0 then [digitChar 0] else (Nat.digits 10 n).reverse.map digitChar) := by
  by_cases hn : n = 0
  · simp [natDecimal, hn]
  · rw [natDecimal, if_neg hn, if_neg hn, natDecimalAux_eq n n (Nat.le_refl n)]

/-- Code point of a digit character. -/
theorem digitChar_toNat (d : Nat) (h : d < 10) : (digitChar d).toNat = 48 + d := by
  interval_cases d <;> rfl

/-- Digit characters are injective on actual digits. -/
theorem digitChar_inj_lt (d1 d2 : Nat) (h1 : d1 < 10) (h2 : d2 < 10)
    (h : digitChar d1 = digitChar d2) : d1 = d2 := by
  have hv := congrArg Char.toNat h
  rw [digitChar_toNat d1 h1, digitChar_toNat d2 h2] at hv
  omega

/-- Mapping `digitChar` over digit lists is injective. -/
theorem map_digitChar_inj (l1 : List Nat) :
    ∀ l2, (∀ x ∈ l1, x < 10) → (∀ x ∈ l2, x < 10) →
      l1.map digitChar = l2.map digitChar → l1 = l2 := by
  induction l1 with
  | nil =>
    intro l2 _ _ h
    cases l2 with
    | nil => rfl
    | cons b bs => simp at h
  | cons a as ih =>
    intro l2 h1 h2 h
    cases l2 with
    | nil => simp at h
    | cons b bs =>
      simp only [List.map_cons, List.cons.injEq] at h
      have ha : a = b :=
        digitChar_inj_lt a b (h1 a (List.mem_cons_self _ _))
          (h2 b (List.mem_cons_self _ _)) h.1
      have has : as = bs :=
        ih bs (fun x hx => h1 x (List.mem_cons_of_mem _ hx))
          (fun x hx => h2 x (List.mem_cons_of_mem _ hx)) h.2
      rw [ha, has]

/-- The decimal rendering is injective. -/
theorem natDecimal_inj (m n : Nat) (h : natDecimal m = natDecimal n) : m = n := by
  have hdig : ∀ k : Nat, ∀ x ∈ (Nat.digits 10 k).reverse, x < 10 := by
    intro k x hx
    exact Nat.digits_lt_base (by norm_num) (List.mem_reverse.mp hx)
  have hzero : ∀ k : Nat, k ≠ 0 →
      (Nat.digits 10 k).reverse.map digitChar ≠ [digitChar 0] := by
    intro k hk hcon
    have h1 : (Nat.digits 10 k).reverse = [0] := by
      have := map_digitChar_inj (Nat.digits 10 k).reverse [0] (hdig k)
        (by intro x hx; simp at hx; omega) (by simpa using hcon)
      exact this
    have h2 : Nat.digits 10 k = [0] := by
      have := congrArg List.reverse h1
      simpa using this
    have h3 : k = 0 := by
      have := Nat.ofDigits_digits 10 k
      rw [h2] at this
      simpa [Nat.ofDigits] using this.symm
    exact hk h3
  rw [natDecimal_eq, natDecimal_eq] at h
  by_cases hm : m = 0 <;> by_cases hn : n = 0
  · rw [hm, hn]
  · rw [if_pos hm, if_neg hn] at h
    exact absurd h.symm (hzero n hn)
  · rw [if_neg hm, if_pos hn] at h
    exact absurd h (hzero m hm)
  · rw [if_neg hm, if_neg hn] at h
    have h1 : (Nat.digits 10 m).reverse = (Nat.digits 10 n).reverse :=
      map_digitChar_inj _ _ (hdig m) (hdig n) h
    have h2 : Nat.digits 10 m = Nat.digits 10 n := by
      have := congrArg List.reverse h1
      simpa using this
    have := congrArg (Nat.ofDigits 10) h2
    rwa [Nat.ofDigits_digits, Nat.ofDigits_digits] at this

/-- The decimal rendering starts with a digit character. -/
theorem natDecimal_head (n : Nat) :
    ∃ d tail, d < 10 ∧ natDecimal n = digitChar d :: tail := by
  by_cases hn : n = 0
  · exact ⟨0, [], by norm_num, by simp [natDecimal_eq, hn]⟩
  · have hne : Nat.digits 10 n ≠ [] := Nat.digits_ne_nil_iff_ne_zero.mpr hn
    have hne2 : (Nat.digits 10 n).reverse ≠ [] := by simpa using hne
    rcases List.exists_cons_of_ne_nil hne2 with ⟨x, rest, hx⟩
    have hxmem : x ∈ Nat.digits 10 n := by
      have : x ∈ (Nat.digits 10 n).reverse := by
        rw [hx]; exact List.mem_cons_self _ _
      exact List.mem_reverse.mp this
    refine ⟨x, rest.map digitChar, Nat.digits_lt_base (by norm_num) hxmem, ?_⟩
    rw [natDecimal_eq, if_neg hn, hx]
    simp

/-- Character data of the raw-UGC temp path. -/
theorem ugcTempPath_data (t : Nat) :
    (ugcTempPath t).data =
      '/' :: 't' :: 'm' :: 'p' :: '/' :: 'u' :: 'g' :: 'c' :: '-' ::
        (natDecimal t ++ ['.', 'm', 'p', '4']) := by
  show (("/tmp/ugc-" ++ jsNumberToString t) ++ ".mp4").data = _
  rw [String.data_append, String.data_append]
  rw [(rfl : ("/tmp/ugc-" : String).data = ['/', 't', 'm', 'p', '/', 'u', 'g', 'c', '-'])]
  simp [jsNumberToString]

/-- Character data of the captioned-UGC temp path. -/
theorem ugcWithTextPath_data (t : Nat) :
    (ugcWithTextPath t).data =
      '/' :: 't' :: 'm' :: 'p' :: '/' :: 'u' :: 'g' :: 'c' :: '-' :: 't' :: 'e' :: 'x' :: 't' :: '-' ::
        (natDecimal t ++ ['.', 'm', 'p', '4']) := by
  show (("/tmp/ugc-text-" ++ jsNumberToString t) ++ ".mp4").data = _
  rw [String.data_append, String.data_append]
  rw [(rfl : ("/tmp/ugc-text-" : String).data =
    ['/', 't', 'm', 'p', '/', 'u', 'g', 'c', '-', 't', 'e', 'x', 't', '-'])]
  simp [jsNumberToString]

/-- Character data of the demo temp path. -/
theorem demoTempPath_data (t : Nat) :
    (demoTempPath t).data =
      '/' :: 't' :: 'm' :: 'p' :: '/' :: 'd' :: 'e' :: 'm' :: 'o' :: '-' ::
        (natDecimal t ++ ['.', 'm', 'p', '4']) := by
  show (("/tmp/demo-" ++ jsNumberToString t) ++ ".mp4").data = _
  rw [String.data_append, String.data_append]
  rw [(rfl : ("/tmp/demo-" : String).data = ['/', 't', 'm', 'p', '/', 'd', 'e', 'm', 'o', '-'])]
  simp [jsNumberToString]

/-- Character data of the final-output temp path. -/
theorem finalVideoPath_data (t : Nat) :
    (finalVideoPath t).data =
      '/' :: 't' :: 'm' :: 'p' :: '/' :: 'f' :: 'i' :: 'n' :: 'a' :: 'l' :: '-' ::
        (natDecimal t ++ ['.', 'm', 'p', '4']) := by
  show (("/tmp/final-" ++ jsNumberToString t) ++ ".mp4").data = _
  rw [String.data_append, String.data_append]
  rw [(rfl : ("/tmp/final-" : String).data =
    ['/', 't', 'm', 'p', '/', 'f', 'i', 'n', 'a', 'l', '-'])]
  simp [jsNumberToString]

/-- The raw-UGC path determines the timestamp. -/
theorem ugcTempPath_inj (t1 t2 : Nat) (h : ugcTempPath t1 = ugcTempPath t2) :
    t1 = t2 := by
  have hd := congrArg String.data h
  rw [ugcTempPath_data, ugcTempPath_data] at hd
  simp only [List.cons.injEq, true_and] at hd
  exact natDecimal_inj t1 t2 (List.append_cancel_right hd)

/-- The captioned-UGC path determines the timestamp. -/
theorem ugcWithTextPath_inj (t1 t2 : Nat)
    (h : ugcWithTextPath t1 = ugcWithTextPath t2) : t1 = t2 := by
  have hd := congrArg String.data h
  rw [ugcWithTextPath_data, ugcWithTextPath_data] at hd
  simp only [List.cons.injEq, true_and] at hd
  exact natDecimal_inj t1 t2 (List.append_cancel_right hd)

/-- The demo path determines the timestamp. -/
theorem demoTempPath_inj (t1 t2 : Nat) (h : demoTempPath t1 = demoTempPath t2) :
    t1 = t2 := by
  have hd := congrArg String.data h
  rw [demoTempPath_data, demoTempPath_data] at hd
  simp only [List.cons.injEq, true_and] at hd
  exact natDecimal_inj t1 t2 (List.append_cancel_right hd)

/-- The final-output path determines the timestamp. -/
theorem finalVideoPath_inj (t1 t2 : Nat)
    (h : finalVideoPath t1 = finalVideoPath t2) : t1 = t2 := by
  have hd := congrArg String.data h
  rw [finalVideoPath_data, finalVideoPath_data] at hd
  simp only [List.cons.injEq, true_and] at hd
  exact natDecimal_inj t1 t2 (List.append_cancel_right hd)

/-- The raw-UGC path never collides with a captioned-UGC path: after the
shared prefix the former continues with a digit, the latter with `t`. -/
theorem ugc_ne_ugcText (t1 t2 : Nat) : ugcTempPath t1 ≠ ugcWithTextPath t2 := by
  intro h
  have hd := congrArg String.data h
  rw [ugcTempPath_data, ugcWithTextPath_data] at hd
  obtain ⟨d, tail, hd10, hnat⟩ := natDecimal_head t1
  rw [hnat] at hd
  simp only [List.cons_append, List.cons.injEq, true_and] at hd
  have hv := congrArg Char.toNat hd.1
  rw [digitChar_toNat d hd10] at hv
  have : Char.toNat 't' = 116 := rfl
  omega

/-- The raw-UGC path never collides with a demo path. -/
theorem ugc_ne_demo (t1 t2 : Nat) : ugcTempPath t1 ≠ demoTempPath t2 := by
  intro h
  have hd := congrArg String.data h
  rw [ugcTempPath_data, demoTempPath_data] at hd
  simp at hd

/-- The raw-UGC path never collides with a final-output path. -/
theorem ugc_ne_final (t1 t2 : Nat) : ugcTempPath t1 ≠ finalVideoPath t2 := by
  intro h
  have hd := congrArg String.data h
  rw [ugcTempPath_data, finalVideoPath_data] at hd
  simp at hd

/-- The captioned-UGC path never collides with a demo path. -/
theorem ugcText_ne_demo (t1 t2 : Nat) : ugcWithTextPath t1 ≠ demoTempPath t2 := by
  intro h
  have hd := congrArg String.data h
  rw [ugcWithTextPath_data, demoTempPath_data] at hd
  simp at hd

/-- The captioned-UGC path never collides with a final-output path. -/
theorem ugcText_ne_final (t1 t2 : Nat) : ugcWithTextPath t1 ≠ finalVideoPath t2 := by
  intro h
  have hd := congrArg String.data h
  rw [ugcWithTextPath_data, finalVideoPath_data] at hd
  simp at hd

/-- The demo path never collides with a final-output path. -/
theorem demo_ne_final (t1 t2 : Nat) : demoTempPath t1 ≠ finalVideoPath t2 := by
  intro h
  have hd := congrArg String.data h
  rw [demoTempPath_data, finalVideoPath_data] at hd
  simp at hd

/-- C9 (amended): the temp paths a run derives are a function of its start
timestamp alone — two runs derive the same four paths exactly when they
started in the same millisecond, and runs with distinct start timestamps
share no temp path at all.  Exclusivity per job therefore holds only
between runs whose start timestamps differ. -/
theorem C9_amended_paths (r1 r2 : JobRun) :
    (runTempPaths r1 = runTempPaths r2 ↔ r1.startTime = r2.startTime) ∧
    (r1.startTime ≠ r2.startTime →
      ∀ p ∈ runTempPaths r1, p ∉ runTempPaths r2) := by
  constructor
  · constructor
    · intro h
      simp only [runTempPaths, tempPaths, List.cons.injEq, and_true] at h
      exact ugcTempPath_inj _ _ h.1
    · intro h
      simp [runTempPaths, tempPaths, h]
  · intro hne p hp hp2
    simp only [runTempPaths, tempPaths, List.mem_cons, List.not_mem_nil,
      or_false] at hp hp2
    rcases hp with h | h | h | h <;> subst h <;>
      rcases hp2 with h2 | h2 | h2 | h2
    · exact hne (ugcTempPath_inj _ _ h2)
    · exact ugc_ne_ugcText _ _ h2
    · exact ugc_ne_demo _ _ h2
    · exact ugc_ne_final _ _ h2
    · exact ugc_ne_ugcText _ _ h2.symm
    · exact hne (ugcWithTextPath_inj _ _ h2)
    · exact ugcText_ne_demo _ _ h2
    · exact ugcText_ne_final _ _ h2
    · exact ugc_ne_demo _ _ h2.symm
    · exact ugcText_ne_demo _ _ h2.symm
    · exact hne (demoTempPath_inj _ _ h2)
    · exact demo_ne_final _ _ h2
    · exact ugc_ne_final _ _ h2.symm
    · exact ugcText_ne_final _ _ h2.symm
    · exact demo_ne_final _ _ h2.symm
    · exact hne (finalVideoPath_inj _ _ h2)

/-- C9 witness: runs started at timestamps 1 and 2 share no temp path — the
raw-UGC path of the first run is not among the second run's paths. -/
theorem C9_amended_paths_witness :
    ((⟨"job-a", 1⟩ : JobRun).startTime ≠ (⟨"job-b", 2⟩ : JobRun).startTime) ∧
    (ugcTempPath 1 ∈ runTempPaths ⟨"job-a", 1⟩) ∧
    ugcTempPath 1 ∉ runTempPaths ⟨"job-b", 2⟩ :=
  ⟨by decide, by simp [runTempPaths, tempPaths],
    (C9_amended_paths ⟨"job-a", 1⟩ ⟨"job-b", 2⟩).2 (by decide) _
      (by simp [runTempPaths, tempPaths])⟩

end VideoProc
